import Mathlib

/-!
Verification of the response-stream multiplexing core of the Aide extension,
embedded from `src/extensions/codestory/src/completions/providers/aideAgentProvider.ts`.

JavaScript strings are embedded as Lean `String` (lists of characters), JS `Map`
objects as association lists with unique keys (insertion order preserved, as for
JS `Map`), and the editor/sidecar side effects (stream writes, file saves,
message boxes) as an explicit `Action` trace.  Fallible JS code (a thrown
`TypeError`, a thrown `Error`) is embedded with `Except` or an explicit outcome.
-/

namespace Aide

/-! ## JavaScript string primitives -/

/-- JS `String.prototype.toLowerCase`, character by character. -/
def jsToLowerCase (s : String) : String :=
  String.mk (s.data.map Char.toLower)

/-- JS `String.prototype.endsWith`: `t` is a suffix of `s`. -/
def jsEndsWith (s t : String) : Bool :=
  decide (t.data <:+ s.data)

/-- JS `String.prototype.includes`: `t` occurs inside `s`. -/
def jsIncludes (s t : String) : Bool :=
  decide (t.data <:+: s.data)

/-- JS `String.prototype.slice(n)`: drop the first `n` characters. -/
def jsSliceFrom (s : String) (n : Nat) : String :=
  String.mk (s.data.drop n)

/-- JS `String.prototype.length`. -/
def jsLength (s : String) : Nat :=
  s.data.length

/-- Helper for `jsSplitLines`: walk the characters, cutting at `\r\n`, `\r` or `\n`. -/
def splitLinesAux : List Char → List Char → List String
  | [], acc => [String.mk acc.reverse]
  | '\r' :: '\n' :: rest, acc => String.mk acc.reverse :: splitLinesAux rest []
  | '\r' :: rest, acc => String.mk acc.reverse :: splitLinesAux rest []
  | '\n' :: rest, acc => String.mk acc.reverse :: splitLinesAux rest []
  | c :: rest, acc => splitLinesAux rest (c :: acc)

/-- JS `text.split(/\r\n|\r|\n/g)`, used to build `documentLines`
(aideAgentProvider.ts:312). -/
def jsSplitLines (s : String) : List String :=
  splitLinesAux s.data []

/-! ## JS `Map` model: association list with unique keys -/

/-- JS `Map.prototype.get`. -/
def mapGet {α : Type} (m : List (String × α)) (k : String) : Option α :=
  match m with
  | [] => none
  | (k', v) :: rest => if k' = k then some v else mapGet rest k

/-- JS `Map.prototype.set`: replace in place if the key exists, else append. -/
def mapSet {α : Type} (m : List (String × α)) (k : String) (v : α) : List (String × α) :=
  match m with
  | [] => [(k, v)]
  | (k', v') :: rest => if k' = k then (k, v) :: rest else (k', v') :: mapSet rest k v

/-- JS `Map.prototype.delete`: returns whether an entry was removed, and the new map. -/
def mapDelete {α : Type} (m : List (String × α)) (k : String) : Bool × List (String × α) :=
  match m with
  | [] => (false, [])
  | (k', v') :: rest =>
    if k' = k then (true, rest)
    else
      let r := mapDelete rest k
      (r.1, (k', v') :: r.2)

/-- Keys of the map, in insertion order. -/
def mapKeys {α : Type} (m : List (String × α)) : List String :=
  m.map Prod.fst

/-! ## Stream Registry: `AideResponseStreamCollection` (aideAgentProvider.ts:30-84) -/

/-- `ResponseStreamIdentifier` (aideAgentProvider.ts:25-28). -/
structure ResponseStreamIdentifier where
  sessionId : String
  exchangeId : String
deriving DecidableEq, Repr

/-- A `vscode.AideAgentEventSenderResponse` handle: we keep its identity (`hid`)
and the `exchangeId` property that the provider reads back from it. -/
structure Handle where
  hid : Nat
  exchangeId : String
deriving DecidableEq, Repr

/-- The mutable state of `AideResponseStreamCollection`: the backing `Map` and
the `_latestResponseStream` reference (key plus value), aideAgentProvider.ts:31-36.
The cancellation-listener subscription installed by `addResponseStream` lives in
the extension context, outside this state. -/
structure CollectionState where
  streams : List (String × Handle)
  latest : Option (String × Handle)
deriving DecidableEq, Repr

def emptyCollection : CollectionState := ⟨[], none⟩

/-- `getKey` (aideAgentProvider.ts:46-48): the composite string key. -/
def getKey (id : ResponseStreamIdentifier) : String :=
  id.sessionId ++ "-" ++ id.exchangeId

/-- `addResponseStream` (aideAgentProvider.ts:50-62): `Map.set` on the composite key. -/
def addResponseStream (id : ResponseStreamIdentifier) (h : Handle) (s : CollectionState) :
    CollectionState :=
  { s with streams := mapSet s.streams (getKey id) h }

/-- `getResponseStream` (aideAgentProvider.ts:64-71): lookup; on success the
`_latestResponseStream` reference is updated to this entry. -/
def getResponseStream (id : ResponseStreamIdentifier) (s : CollectionState) :
    Option Handle × CollectionState :=
  let key := getKey id
  match mapGet s.streams key with
  | some h => (some h, { s with latest := some (key, h) })
  | none => (none, s)

/-- `removeResponseStream` (aideAgentProvider.ts:73-79): `Map.delete`; when the
deletion succeeded and the latest reference holds the same composite key, the
latest reference is cleared. -/
def removeResponseStream (id : ResponseStreamIdentifier) (s : CollectionState) :
    CollectionState :=
  let key := getKey id
  let r := mapDelete s.streams key
  let latestKeyMatches : Bool :=
    match s.latest with
    | some kh => kh.1 == key
    | none => false
  { streams := r.2,
    latest := if r.1 && latestKeyMatches then none else s.latest }

/-- `getAllResponseStreams` (aideAgentProvider.ts:81-83). -/
def getAllResponseStreams (s : CollectionState) : List Handle :=
  s.streams.map Prod.snd

/-! ## Effects of the provider, as an explicit trace -/

/-- The synthetic `WorkspaceEdit` built by `undoToCheckpoint`
(aideAgentProvider.ts:224-228): one `delete` operation with an edit-entry
metadata label and a `needsConfirmation` flag. -/
structure WorkspaceDeleteEdit where
  path : String
  startLine : Nat
  startCharacter : Nat
  endLine : Nat
  endCharacter : Nat
  label : String
  needsConfirmation : Bool
deriving DecidableEq, Repr

/-- Observable calls the provider makes on streams, files and callbacks. -/
inductive Action where
  | stage (h : Handle) (message : String)
  | close (h : Handle)
  | markdown (h : Handle) (text : String)
  | reference (h : Handle) (path : String)
  | toolTypeError (h : Handle) (message : String)
  | codeEdit (h : Handle) (edit : WorkspaceDeleteEdit)
  | markComplete (h : Handle)
  | processLine (editRequestId : String) (line : String)
  | cleanupProcessor (editRequestId : String)
  | saveFile (path : String)
  | showErrorMessage (message : String)
  | applyEditsDirectly (path : String)
  | invokeErrorCallback
  | invokeOnUnauthorized
  | listen (port : Nat)
deriving DecidableEq, Repr

/-- How one iteration of the dispatcher loop in `reportAgentEventsToChat` ends:
a `return` statement, a `continue`, or a thrown error. -/
inductive DispatchOutcome where
  | returned
  | continued
  | raised (message : String)
deriving DecidableEq, Repr

/-! ## Edit sessions (`editsMap` entries, aideAgentProvider.ts:313-334) -/

/-- Selection range carried by a streamed edit request. -/
structure EditRange where
  startLine : Nat
  startCharacter : Nat
  endLine : Nat
  endCharacter : Nat
deriving DecidableEq, Repr

/-- Modelled from the spec: `AnswerSplitOnNewLineAccumulatorStreaming` is
imported from `chatState/convertStreamToMessage`, which is not part of the
excerpt.  Per spec section 4.3 it buffers partial lines: `addDelta` appends an
incoming fragment, lines completed by a terminator queue up in order, and
`getLine` yields the next completed line or none. -/
structure AnswerSplitter where
  readyLines : List String
  buffer : String
deriving DecidableEq, Repr

def AnswerSplitter.empty : AnswerSplitter := ⟨[], ""⟩

/-- Modelled from the spec (section 4.3 Delta): append the fragment to the
buffer; every line now terminated becomes ready, the trailing partial line
stays buffered. -/
def AnswerSplitter.addDelta (a : AnswerSplitter) (delta : String) : AnswerSplitter :=
  let pieces := jsSplitLines (a.buffer ++ delta)
  { readyLines := a.readyLines ++ pieces.dropLast,
    buffer := pieces.getLastD "" }

/-- The `while (true) { const currentLine = ... .getLine(); if (currentLine === null)
break; ... }` drain loops (aideAgentProvider.ts:338-344 and 357-363): take every
ready line, in order. -/
def AnswerSplitter.drainAll (a : AnswerSplitter) : List String × AnswerSplitter :=
  (a.readyLines, { a with readyLines := [] })

/-- Modelled from the spec: `StreamProcessor` is imported from
`chatState/convertStreamToMessage`, which is not part of the excerpt.  We record
the construction arguments the provider passes (aideAgentProvider.ts:319-333);
its `processLine` and `cleanup` effects are traced as `Action`s. -/
structure StreamProcessorModel where
  documentLines : List String
  targetPath : String
  range : Option EditRange
  applyDirectly : Bool
  uniqueEditId : String
deriving DecidableEq, Repr

/-- One `editsMap` entry (aideAgentProvider.ts:313-334). -/
structure EditSession where
  answerSplitter : AnswerSplitter
  streamProcessor : StreamProcessorModel
deriving DecidableEq, Repr

/-! ## Provider state (`AideAgentSessionProvider` fields, aideAgentProvider.ts:94-111) -/

structure ProviderState where
  collection : CollectionState
  lastThinkingText : List (String × String)
  startedStreams : List String
  editsMap : List (String × EditSession)
  editCounter : Nat
  openResponseStream : Option Handle
deriving DecidableEq, Repr

def emptyProviderState : ProviderState :=
  { collection := emptyCollection,
    lastThinkingText := [],
    startedStreams := [],
    editsMap := [],
    editCounter := 0,
    openResponseStream := none }

/-- Result of one modelled dispatcher step. -/
structure DispatchStepResult where
  state : ProviderState
  actions : List Action
  outcome : DispatchOutcome
deriving DecidableEq, Repr

/-- `closeAndRemoveResponseStream` (aideAgentProvider.ts:987-996): look the
stream up (which updates the latest reference), close it when found, remove the
registry entry, and drop the thinking-text cache entry. -/
def closeAndRemoveResponseStream (sessionId exchangeId : String) (s : ProviderState) :
    ProviderState × List Action :=
  let r := getResponseStream ⟨sessionId, exchangeId⟩ s.collection
  let closeActs : List Action :=
    match r.1 with
    | some h => [Action.close h]
    | none => []
  let coll := removeResponseStream ⟨sessionId, exchangeId⟩ r.2
  let thinking := (mapDelete s.lastThinkingText (sessionId ++ "-" ++ exchangeId)).2
  ({ s with collection := coll, lastThinkingText := thinking }, closeActs)

/-- The `for (const openStream of openStreams) { this.closeAndRemoveResponseStream(...) }`
teardown loops (aideAgentProvider.ts:599-602, 625-628, 705-708, 746-749). -/
def closeAndRemoveAll (sessionId : String) (hs : List Handle) (s : ProviderState) :
    ProviderState × List Action :=
  match hs with
  | [] => (s, [])
  | h :: rest =>
    let r1 := closeAndRemoveResponseStream sessionId h.exchangeId s
    let r2 := closeAndRemoveAll sessionId rest r1.1
    (r2.1, r1.2 ++ r2.2)

/-- `createNewResponseStream` (aideAgentProvider.ts:965-973) on top of
`newExchangeIdForSession` (aideAgentProvider.ts:235-250): `fresh` is the
response the UI returns for `initResponse`, or none when it declines; a returned
stream is registered and then looked up again. -/
def createNewResponseStream (sessionId : String) (fresh : Option Handle) (s : ProviderState) :
    Option Handle × ProviderState :=
  match fresh with
  | none => (none, s)
  | some h =>
    let coll1 := addResponseStream ⟨sessionId, h.exchangeId⟩ h s.collection
    let r := getResponseStream ⟨sessionId, h.exchangeId⟩ coll1
    (r.1, { s with collection := r.2 })

/-! ## The top-level error-event branch of the dispatcher
(`reportAgentEventsToChat`, aideAgentProvider.ts:590-630) -/

/-- A top-level `error` event from the sidecar event stream. -/
structure ErrorEvent where
  request_id : String
  message : String
deriving DecidableEq, Repr

/-- Error text emitted for `wrong tool output` failures
(aideAgentProvider.ts:614-617; abridged, apostrophes omitted). -/
def wrongToolOutputMessage : String :=
  "The LLM that you are using right now returned a response that does not adhere to the format our framework expects, and thus this request has failed."

/-- Tail appended to a generic top-level error message
(aideAgentProvider.ts:619-621; abridged, apostrophes omitted). -/
def genericErrorTail : String :=
  ".\n\nPlease report this session using the feedback tool above - this is on us. Please try again."

/-- The `event.event.Error` branch of `reportAgentEventsToChat`
(aideAgentProvider.ts:590-630).  `authPresent` and `errorCbPresent` say whether
the optional `authCallbacks` and `errorCallback` arguments were passed;
`fresh` is the oracle for `createNewResponseStream`. -/
def reportErrorEvent (ev : ErrorEvent) (authPresent errorCbPresent : Bool)
    (fresh : Option Handle) (s : ProviderState) : DispatchStepResult :=
  if jsEndsWith (jsToLowerCase ev.message) "cancelled by user" then
    let stageActs : List Action :=
      match s.collection.latest with
      | some kh => [Action.stage kh.2 "Cancelled"]
      | none => []
    let openStreams := getAllResponseStreams s.collection
    let r := closeAndRemoveAll ev.request_id openStreams s
    ⟨r.1, stageActs ++ r.2, DispatchOutcome.returned⟩
  else
    let unauthorizedActs : List Action :=
      if jsIncludes (jsToLowerCase ev.message) "unauthorized access" && authPresent then
        [Action.invokeOnUnauthorized]
      else []
    let resolved : Option Handle × ProviderState :=
      match s.collection.latest with
      | some kh => (some kh.2, s)
      | none => createNewResponseStream ev.request_id fresh s
    match resolved.1 with
    | none => ⟨resolved.2, unauthorizedActs, DispatchOutcome.returned⟩
    | some h =>
      let msgAct : Action :=
        if jsEndsWith (jsToLowerCase ev.message) "wrong tool output" then
          Action.toolTypeError h wrongToolOutputMessage
        else
          Action.toolTypeError h (ev.message ++ genericErrorTail)
      let errCbActs : List Action :=
        if errorCbPresent then [Action.invokeErrorCallback] else []
      let openStreams := getAllResponseStreams resolved.2.collection
      let r := closeAndRemoveAll ev.request_id openStreams resolved.2
      ⟨r.1, unauthorizedActs ++ [msgAct, Action.stage h "Error"] ++ errCbActs ++ r.2,
        DispatchOutcome.returned⟩

/-! ## ToolThinking delta emission (aideAgentProvider.ts:667-681) -/

/-- The `FrameworkEvent.ToolThinking` branch: diff the cumulative thinking text
against the cached last text for the exchange, emit only the new suffix (with a
trailing newline) when non-empty, then update the cache. -/
def handleToolThinking (sessionId exchangeId : String) (h : Handle) (thinking : String)
    (lastThinkingText : List (String × String)) : List Action × List (String × String) :=
  let key := sessionId ++ "-" ++ exchangeId
  let lastText := (mapGet lastThinkingText key).getD ""
  let delta := jsSliceFrom thinking (jsLength lastText)
  let acts : List Action :=
    if delta = "" then [] else [Action.markdown h (delta ++ "\n")]
  (acts, mapSet lastThinkingText key thinking)

/-! ## `undoToCheckpoint` (aideAgentProvider.ts:202-233) -/

structure SidecarUndoPlanStep where
  exchange_id : String
  session_id : String
  index : Option Nat
deriving DecidableEq, Repr

def undoToCheckpoint (req : SidecarUndoPlanStep) (s : ProviderState) :
    Bool × ProviderState × List Action :=
  let g := getResponseStream ⟨req.session_id, req.exchange_id⟩ s.collection
  let s1 := { s with collection := g.2 }
  match g.1 with
  | none => (false, s1, [])
  | some h =>
    let label :=
      match req.index with
      | none => req.exchange_id
      | some planStep => req.exchange_id ++ "::" ++ toString planStep
    (true, s1,
      [Action.codeEdit h
        { path := "/undoCheck", startLine := 0, startCharacter := 0,
          endLine := 0, endCharacter := 0, label := label, needsConfirmation := false }])

/-! ## `provideEdit` (aideAgentProvider.ts:372-391) -/

structure SidecarApplyEditsRequest where
  fs_file_path : String
  apply_directly : Bool
deriving DecidableEq, Repr

structure FsResponse where
  fs_file_path : String
  success : Bool
deriving DecidableEq, Repr

/-- `provideEdit`: direct requests are applied synchronously; without an open
turn-scoped stream the function returns the file path with `success = true`
while doing nothing; otherwise it delegates to the external `applyEdits`
helper (`server/applyEdits`, outside the excerpt), whose result is the
`applyEditsResult` oracle. -/
def provideEdit (req : SidecarApplyEditsRequest)
    (applyEditsResult : FsResponse × List Action) (s : ProviderState) :
    FsResponse × List Action :=
  if req.apply_directly then
    (⟨req.fs_file_path, true⟩, [Action.applyEditsDirectly req.fs_file_path])
  else
    match s.openResponseStream with
    | none => (⟨req.fs_file_path, true⟩, [])
    | some _ => applyEditsResult

/-! ## `provideEditStreamed` (aideAgentProvider.ts:252-370) -/

/-- The streamed-edit control event: `'Start'`, `'End'`, or `{ Delta: text }`. -/
inductive EditStreamPayload where
  | startEvent
  | endEvent
  | delta (text : String)
deriving DecidableEq, Repr

structure EditedCodeStreamingRequest where
  edit_request_id : String
  session_id : String
  exchange_id : String
  plan_step_id : Option String
  apply_directly : Bool
  fs_file_path : String
  range : Option EditRange
  event : EditStreamPayload
deriving DecidableEq, Repr

/-- A thrown JS runtime error. -/
inductive JsError where
  | typeError
deriving DecidableEq, Repr

instance exceptDecidableEq {ε α : Type} [DecidableEq ε] [DecidableEq α] :
    DecidableEq (Except ε α) := fun x y =>
  match x, y with
  | Except.ok a, Except.ok b =>
    if h : a = b then isTrue (by rw [h])
    else isFalse (fun hh => h (by cases hh; rfl))
  | Except.error a, Except.error b =>
    if h : a = b then isTrue (by rw [h])
    else isFalse (fun hh => h (by cases hh; rfl))
  | Except.ok _, Except.error _ => isFalse (fun hh => Except.noConfusion hh)
  | Except.error _, Except.ok _ => isFalse (fun hh => Except.noConfusion hh)

/-- `provideEditStreamed`.  `docText` is the oracle for
`vscode.workspace.openTextDocument` combined with `createFileIfNotExists`
(aideAgentProvider.ts:288-305): the document text finally obtained on `Start`,
or none when the file could neither be opened nor created.  On `End` with no
live session, `this.editsMap.get(...)` is `undefined` and reading
`.answerSplitter` from it throws a `TypeError` (aideAgentProvider.ts:337-339);
the `Delta` branch checks for `undefined` instead (aideAgentProvider.ts:355). -/
def provideEditStreamed (req : EditedCodeStreamingRequest) (docText : Option String)
    (s : ProviderState) : Except JsError (FsResponse × ProviderState × List Action) :=
  let g := getResponseStream ⟨req.session_id, req.exchange_id⟩ s.collection
  let responseStream := g.1
  let s := { s with collection := g.2 }
  let uniqueEditId :=
    match req.plan_step_id with
    | none => req.exchange_id
    | some p => req.exchange_id ++ "::" ++ p
  if !req.apply_directly && s.openResponseStream.isNone && responseStream.isNone then
    Except.ok (⟨"", false⟩, s, [])
  else
    match req.event with
    | EditStreamPayload.startEvent =>
      match docText with
      | none =>
        Except.ok (⟨"", false⟩, s,
          [Action.showErrorMessage
            ("File creation at " ++ req.fs_file_path ++ " failed, please tell the devs!")])
      | some text =>
        let documentLines := jsSplitLines text
        let session : EditSession :=
          { answerSplitter := AnswerSplitter.empty,
            streamProcessor :=
              { documentLines := documentLines,
                targetPath := req.fs_file_path,
                range := req.range,
                applyDirectly := req.apply_directly,
                uniqueEditId := uniqueEditId } }
        Except.ok (⟨"", true⟩,
          { s with editsMap := mapSet s.editsMap req.edit_request_id session }, [])
    | EditStreamPayload.endEvent =>
      match mapGet s.editsMap req.edit_request_id with
      | none => Except.error JsError.typeError
      | some em =>
        let drained := em.answerSplitter.drainAll
        Except.ok (⟨"", true⟩,
          { s with editsMap := (mapDelete s.editsMap req.edit_request_id).2,
                   editCounter := s.editCounter + 1 },
          drained.1.map (Action.processLine req.edit_request_id)
            ++ [Action.cleanupProcessor req.edit_request_id,
                Action.saveFile req.fs_file_path])
    | EditStreamPayload.delta d =>
      match mapGet s.editsMap req.edit_request_id with
      | none => Except.ok (⟨"", true⟩, s, [])
      | some em =>
        let asp := em.answerSplitter.addDelta d
        let drained := asp.drainAll
        Except.ok (⟨"", true⟩,
          { s with editsMap := (mapSet s.editsMap req.edit_request_id
              { em with answerSplitter := drained.2 }) },
          drained.1.map (Action.processLine req.edit_request_id))

/-! ## Port selection (aideAgentProvider.ts:113-144, 163-172) -/

/-- `getNextOpenPort`: linear probe upward from the fixed default 42427 while
`startFrom < 65535` (inside the loop `openPort` is still null, so the
`|| !!openPort` disjunct of the loop condition never holds); the first free
port breaks the loop and is returned, and exhausting the space returns null.
`isPortOpen` is the oracle for the `net.createServer` probe. -/
def getNextOpenPort (isPortOpen : Nat → Bool) (startFrom : Nat := 42427) : Option Nat :=
  if startFrom < 65535 then
    if isPortOpen startFrom then some startFrom
    else getNextOpenPort isPortOpen (startFrom + 1)
  else none
termination_by 65535 - startFrom
decreasing_by omega

/-- The port-selection step of the `AideAgentSessionProvider` constructor
(aideAgentProvider.ts:163-172): a null port throws
`Error('Could not find an open port')`; otherwise the inbound server starts
listening on the port. -/
def providerConstructorPort (isPortOpen : Nat → Bool) : Except String (Nat × List Action) :=
  match getNextOpenPort isPortOpen 42427 with
  | none => Except.error "Could not find an open port"
  | some port => Except.ok (port, [Action.listen port])

/-! ## Session Driver retry (aideAgentProvider.ts:442-548) -/

/-- Which credential check produced a token: `getSession({ hardCheck: false })`
or `getSession({ hardCheck: true })`. -/
inductive CredCheck where
  | soft
  | hard
deriving DecidableEq, Repr

/-- One sidecar call made by `streamResponse`: the prompt it was called with,
its `hasRetried` flag, and which credential check produced its token. -/
structure AttemptRecord where
  prompt : String
  hasRetried : Bool
  cred : CredCheck
deriving DecidableEq, Repr

/-- `streamResponse` (aideAgentProvider.ts:474-548) restricted to its
re-authentication control flow.  `authErrorAt b` says whether the dispatcher
invokes `authCallbacks.onUnauthorized` during the attempt running with
`hasRetried = b` (aideAgentProvider.ts:606-609 and 751-753).  `onUnauthorized`
returns immediately when `hasRetried` is already true, otherwise re-acquires a
hard-checked credential and calls `streamResponse` again with `hasRetried = true`
(aideAgentProvider.ts:486-497).  `fuel` makes the general recursion total; the
claim theorem shows fuel 2 always suffices. -/
def streamResponseFuel (prompt : String) (token : CredCheck) (authErrorAt : Bool → Bool)
    (hasRetried : Bool) (fuel : Nat) : Option (List AttemptRecord) :=
  match fuel with
  | 0 => none
  | Nat.succ fuel' =>
    let attempt : AttemptRecord := ⟨prompt, hasRetried, token⟩
    if authErrorAt hasRetried then
      if hasRetried then
        some [attempt]
      else
        Option.map (fun rest => attempt :: rest)
          (streamResponseFuel prompt CredCheck.hard authErrorAt true fuel')
    else some [attempt]

/-- `processEvent` (aideAgentProvider.ts:442-467): acquires a soft-checked
credential and calls `streamResponse`, whose `hasRetried` parameter defaults to
false. -/
def processEventModel (prompt : String) (authErrorAt : Bool → Bool) (fuel : Nat) :
    Option (List AttemptRecord) :=
  streamResponseFuel prompt CredCheck.soft authErrorAt false fuel

/-! ## Concrete states used by closed theorems -/

/-- Registering handle 2 under `("a", "b-c")` after registering handle 1 under
`("a-b", "c")` — two distinct pairs with the same composite key. -/
def collisionState : CollectionState :=
  addResponseStream ⟨"a", "b-c"⟩ ⟨2, "b-c"⟩
    (addResponseStream ⟨"a-b", "c"⟩ ⟨1, "c"⟩ emptyCollection)

/-- The registry state where `("a-b", "c")` was registered and then successfully
looked up, so the latest-handle reference points at its entry. -/
def latestLookedUpState : CollectionState :=
  (getResponseStream ⟨"a-b", "c"⟩
    (addResponseStream ⟨"a-b", "c"⟩ ⟨1, "c"⟩ emptyCollection)).2

/-- A provider with one response stream registered for session `"s2"`. -/
def otherSessionState : ProviderState :=
  { emptyProviderState with collection :=
      { streams := [(getKey ⟨"s2", "e2"⟩, ⟨2, "e2"⟩)], latest := none } }

/-- A top-level cancellation error event arriving for session `"s1"`. -/
def cancelEventS1 : ErrorEvent := ⟨"s1", "request was cancelled by user"⟩

/-- A provider with two streams registered for session `"s"`, the first of which
is the latest looked-up one. -/
def twoStreamState : ProviderState :=
  { emptyProviderState with collection :=
      { streams := [(getKey ⟨"s", "e1"⟩, ⟨1, "e1"⟩), (getKey ⟨"s", "e2"⟩, ⟨2, "e2"⟩)],
        latest := some (getKey ⟨"s", "e1"⟩, ⟨1, "e1"⟩) } }

/-- A streamed-edit `Start` request for edit-request id `"r1"`. -/
def startReqR1 : EditedCodeStreamingRequest :=
  { edit_request_id := "r1", session_id := "s", exchange_id := "e", plan_step_id := none,
    apply_directly := true, fs_file_path := "/tmp/file.txt", range := none,
    event := EditStreamPayload.startEvent }

/-- The matching `End` request for edit-request id `"r1"`. -/
def endReqR1 : EditedCodeStreamingRequest :=
  { startReqR1 with event := EditStreamPayload.endEvent }

/-- The edit session `Start` creates for `startReqR1` with document text `"hello"`. -/
def sessionR1 : EditSession :=
  { answerSplitter := AnswerSplitter.empty,
    streamProcessor :=
      { documentLines := ["hello"], targetPath := "/tmp/file.txt", range := none,
        applyDirectly := true, uniqueEditId := "e" } }

/-- Provider state after the `Start` of `startReqR1`. -/
def stateAfterStartR1 : ProviderState :=
  { emptyProviderState with editsMap := [("r1", sessionR1)] }

/-- Provider state after the first `End` of `endReqR1`. -/
def stateAfterEndR1 : ProviderState :=
  { emptyProviderState with editCounter := 1 }

/-! ## Map lemmas -/

theorem mapGet_set_self {α : Type} (m : List (String × α)) (k : String) (v : α) :
    mapGet (mapSet m k v) k = some v := by
  induction m with
  | nil => simp [mapSet, mapGet]
  | cons p rest ih =>
    obtain ⟨k', v'⟩ := p
    by_cases hk : k' = k
    · simp [mapSet, hk, mapGet]
    · simp [mapSet, hk, mapGet, ih]

theorem mapGet_eq_none_of_not_mem {α : Type} (m : List (String × α)) (k : String)
    (h : k ∉ mapKeys m) : mapGet m k = none := by
  induction m with
  | nil => rfl
  | cons p rest ih =>
    obtain ⟨k', v'⟩ := p
    have h1 : ¬(k' = k) := by
      intro hh
      exact h (by simp [mapKeys, hh])
    have h2 : k ∉ mapKeys rest := by
      intro hh
      refine h ?_
      simp only [mapKeys, List.map_cons, List.mem_cons]
      exact Or.inr hh
    simp [mapGet, h1, ih h2]

theorem mapKeys_set {α : Type} (m : List (String × α)) (k : String) (v : α) :
    mapKeys (mapSet m k v) = if k ∈ mapKeys m then mapKeys m else mapKeys m ++ [k] := by
  induction m with
  | nil => simp [mapSet, mapKeys]
  | cons p rest ih =>
    obtain ⟨k', v'⟩ := p
    by_cases hk : k' = k
    · subst hk
      simp [mapSet, mapKeys]
    · have hk' : ¬(k = k') := fun hh => hk hh.symm
      simp only [mapSet, if_neg hk, mapKeys, List.map_cons]
      by_cases hmem : k ∈ mapKeys rest
      · simp [mapKeys] at hmem ih ⊢
        simp [hmem, hk'] at ih ⊢
        exact ih
      · simp [mapKeys] at hmem ih ⊢
        simp [hmem, hk'] at ih ⊢
        exact ih

theorem nodup_mapKeys_set {α : Type} (m : List (String × α)) (k : String) (v : α)
    (h : (mapKeys m).Nodup) : (mapKeys (mapSet m k v)).Nodup := by
  rw [mapKeys_set]
  by_cases hmem : k ∈ mapKeys m
  · simpa [hmem] using h
  · simp only [if_neg hmem]
    simpa [List.nodup_append] using ⟨h, hmem⟩

theorem mapGet_delete_self {α : Type} (m : List (String × α)) (k : String)
    (h : (mapKeys m).Nodup) : mapGet (mapDelete m k).2 k = none := by
  induction m with
  | nil => rfl
  | cons p rest ih =>
    obtain ⟨k', v'⟩ := p
    simp only [mapKeys, List.map_cons, List.nodup_cons] at h
    by_cases hk : k' = k
    · subst hk
      simp only [mapDelete, if_pos rfl]
      exact mapGet_eq_none_of_not_mem rest k' h.1
    · simp only [mapDelete, if_neg hk, mapGet, if_neg hk]
      exact ih h.2

theorem mapDelete_fst_true_iff {α : Type} (m : List (String × α)) (k : String) :
    (mapDelete m k).1 = true ↔ k ∈ mapKeys m := by
  induction m with
  | nil => simp [mapDelete, mapKeys]
  | cons p rest ih =>
    obtain ⟨k', v'⟩ := p
    by_cases hk : k' = k
    · subst hk
      simp [mapDelete, mapKeys]
    · have : ¬(k = k') := fun hh => hk hh.symm
      simp [mapDelete, hk, mapKeys, this] at ih ⊢
      simpa [mapKeys] using ih

/-! ## Registry lemmas and claims C2, C8, C9 -/

theorem getResponseStream_fst (id : ResponseStreamIdentifier) (s : CollectionState) :
    (getResponseStream id s).1 = mapGet s.streams (getKey id) := by
  unfold getResponseStream
  cases hm : mapGet s.streams (getKey id) <;> simp [hm]

/-- Claim C2: for every ExchangeKey `k` and handle `h`, registering `h` under `k`
and then looking up `k` returns `h`; and after registering `h` under `k` and then
removing `k`, looking up `k` returns none.  The starting state is any registry
state with unique map keys (the JS `Map` invariant). -/
theorem claim_c2_register_lookup_remove (s : CollectionState)
    (k : ResponseStreamIdentifier) (h : Handle)
    (hnd : (mapKeys s.streams).Nodup) :
    (getResponseStream k (addResponseStream k h s)).1 = some h ∧
    (getResponseStream k (removeResponseStream k (addResponseStream k h s))).1 = none := by
  constructor
  · rw [getResponseStream_fst]
    exact mapGet_set_self s.streams (getKey k) h
  · rw [getResponseStream_fst]
    show mapGet (mapDelete (mapSet s.streams (getKey k) h) (getKey k)).2 (getKey k) = none
    exact mapGet_delete_self _ _ (nodup_mapKeys_set s.streams (getKey k) h hnd)

theorem claim_c2_register_lookup_remove_witness :
    (getResponseStream ⟨"s", "e"⟩ (addResponseStream ⟨"s", "e"⟩ ⟨1, "e"⟩ emptyCollection)).1
      = some ⟨1, "e"⟩ ∧
    (getResponseStream ⟨"s", "e"⟩
      (removeResponseStream ⟨"s", "e"⟩
        (addResponseStream ⟨"s", "e"⟩ ⟨1, "e"⟩ emptyCollection))).1 = none :=
  claim_c2_register_lookup_remove emptyCollection ⟨"s", "e"⟩ ⟨1, "e"⟩ (by decide)

/-- Claim C9: `getKey` is not injective — `("a-b", "c")` and `("a", "b-c")` are
distinct ExchangeKeys with the same composite string, so registering a handle
under the second silently replaces the handle registered under the first (the
map keeps a single entry), and a lookup of either key returns the last handle
registered. -/
theorem claim_c9_getKey_not_injective :
    getKey ⟨"a-b", "c"⟩ = getKey ⟨"a", "b-c"⟩ ∧
    (⟨"a-b", "c"⟩ : ResponseStreamIdentifier) ≠ ⟨"a", "b-c"⟩ ∧
    collisionState.streams.length = 1 ∧
    (getResponseStream ⟨"a-b", "c"⟩ collisionState).1 = some ⟨2, "b-c"⟩ ∧
    (getResponseStream ⟨"a", "b-c"⟩ collisionState).1 = some ⟨2, "b-c"⟩ := by
  decide

/-- Claim C8, counterexample: removing the ExchangeKey `("a", "b-c")`, which is
NOT the latest looked-up key `("a-b", "c")` (the pairs are distinct), clears the
latest-handle reference instead of leaving it unchanged, because the two keys
share one composite string. -/
theorem claim_c8_counterexample :
    ((⟨"a", "b-c"⟩ : ResponseStreamIdentifier) ≠ ⟨"a-b", "c"⟩) ∧
    latestLookedUpState.latest = some (getKey ⟨"a-b", "c"⟩, ⟨1, "c"⟩) ∧
    (removeResponseStream ⟨"a", "b-c"⟩ latestLookedUpState).latest = none := by
  decide

/-- Claim C8 as amended: the comparison happens at the composite-key level.  If
the latest reference holds composite key `k'` whose entry is present, then
removing any ExchangeKey `k` with `getKey k = k'` (the latest looked-up key
itself, or a distinct pair colliding with it) clears the latest reference;
removing a key whose composite string differs from `k'` leaves the latest
reference unchanged. -/
theorem claim_c8_amended (s : CollectionState) (k : ResponseStreamIdentifier)
    (k' : String) (h : Handle)
    (hlat : s.latest = some (k', h))
    (hmem : k' ∈ mapKeys s.streams) :
    (getKey k = k' → (removeResponseStream k s).latest = none) ∧
    (getKey k ≠ k' → (removeResponseStream k s).latest = s.latest) := by
  constructor
  · intro hkey
    subst hkey
    have hdel : (mapDelete s.streams (getKey k)).1 = true :=
      (mapDelete_fst_true_iff _ _).mpr hmem
    simp [removeResponseStream, hlat, hdel]
  · intro hkey
    have : (k' == getKey k) = false := by
      simp [beq_eq_false_iff_ne]
      exact fun hh => hkey hh.symm
    simp [removeResponseStream, hlat, this]

theorem claim_c8_amended_witness :
    (removeResponseStream ⟨"a-b", "c"⟩ latestLookedUpState).latest = none ∧
    (removeResponseStream ⟨"x", "y"⟩ latestLookedUpState).latest
      = latestLookedUpState.latest :=
  ⟨(claim_c8_amended latestLookedUpState ⟨"a-b", "c"⟩ (getKey ⟨"a-b", "c"⟩) ⟨1, "c"⟩
      (by decide) (by decide)).1 rfl,
   (claim_c8_amended latestLookedUpState ⟨"x", "y"⟩ (getKey ⟨"a-b", "c"⟩) ⟨1, "c"⟩
      (by decide) (by decide)).2 (by decide)⟩

/-! ## Teardown-loop lemmas and claim C1 -/

/-- Lowercasing preserves an already-lowercase suffix: a message ending in
`"cancelled by user"` still ends in it after `toLowerCase`, so such a message
always takes the cancellation branch of the dispatcher. -/
theorem jsEndsWith_toLower_cancelled (msg : String)
    (h : jsEndsWith msg "cancelled by user" = true) :
    jsEndsWith (jsToLowerCase msg) "cancelled by user" = true := by
  unfold jsEndsWith at h ⊢
  rw [decide_eq_true_eq] at h ⊢
  have hmap := List.IsSuffix.map Char.toLower h
  have hfix : ("cancelled by user" : String).data.map Char.toLower
      = ("cancelled by user" : String).data := by decide
  rw [hfix] at hmap
  simpa [jsToLowerCase] using hmap

/-- One step of the teardown loop: when the head entry of the registry is keyed
by this session and its handle's own exchange id, `closeAndRemoveResponseStream`
finds it, closes it, removes exactly that entry, and leaves the latest reference
cleared. -/
theorem closeAndRemove_head (sid : String) (k : String) (h : Handle)
    (rest : List (String × Handle)) (s : ProviderState)
    (hs : s.collection.streams = (k, h) :: rest)
    (hk : k = getKey ⟨sid, h.exchangeId⟩) :
    (closeAndRemoveResponseStream sid h.exchangeId s).1.collection.streams = rest ∧
    (closeAndRemoveResponseStream sid h.exchangeId s).1.collection.latest = none ∧
    (closeAndRemoveResponseStream sid h.exchangeId s).2 = [Action.close h] := by
  subst hk
  simp [closeAndRemoveResponseStream, getResponseStream, hs, mapGet, removeResponseStream,
    mapDelete]

/-- Folding `closeAndRemoveResponseStream` over the registered handles, with
every entry keyed by this session and its handle's own exchange id, empties the
registry, clears the latest reference (unless there was nothing to do), and
closes each handle in order. -/
theorem closeAndRemoveAll_teardown (sid : String) :
    ∀ (l : List (String × Handle)) (s : ProviderState),
      s.collection.streams = l →
      (∀ p ∈ l, p.1 = getKey ⟨sid, p.2.exchangeId⟩) →
      (closeAndRemoveAll sid (l.map Prod.snd) s).1.collection.streams = [] ∧
      (closeAndRemoveAll sid (l.map Prod.snd) s).1.collection.latest
        = (if l = [] then s.collection.latest else none) ∧
      (closeAndRemoveAll sid (l.map Prod.snd) s).2
        = l.map (fun p => Action.close p.2) := by
  intro l
  induction l with
  | nil =>
    intro s hs _
    simp [closeAndRemoveAll, hs]
  | cons p rest ih =>
    intro s hs hkeys
    obtain ⟨k, h⟩ := p
    have hk : k = getKey ⟨sid, h.exchangeId⟩ := hkeys (k, h) (List.mem_cons_self _ _)
    have step := closeAndRemove_head sid k h rest s hs hk
    have hrest := ih (closeAndRemoveResponseStream sid h.exchangeId s).1 step.1
      (fun q hq => hkeys q (List.mem_cons_of_mem _ hq))
    have e1 : closeAndRemoveAll sid (((k, h) :: rest).map Prod.snd) s
        = ((closeAndRemoveAll sid (rest.map Prod.snd)
              (closeAndRemoveResponseStream sid h.exchangeId s).1).1,
           (closeAndRemoveResponseStream sid h.exchangeId s).2
             ++ (closeAndRemoveAll sid (rest.map Prod.snd)
                  (closeAndRemoveResponseStream sid h.exchangeId s).1).2) := rfl
    refine ⟨?_, ?_, ?_⟩
    · rw [e1]
      exact hrest.1
    · rw [e1]
      rcases Decidable.em (rest = []) with hr | hr
      · subst hr
        simpa [closeAndRemoveAll] using step.2.1
      · simp only [hrest.2.1, if_neg hr]
        simp
    · rw [e1, step.2.2, hrest.2.2]
      simp

/-- Claim C1 as amended: for a top-level error event whose message ends with
`"cancelled by user"`, the dispatcher sets stage `"Cancelled"` on the latest
response stream and returns from the dispatch loop normally (a plain `return`,
no raised error); it closes and removes every registered stream whose registry
key pairs the event's `request_id` with that stream's own exchange id — in
particular every registered stream, whenever all entries belong to the event's
session (as hypothesised here) — but streams registered under other sessions
are not closed or removed (see the counterexample). -/
theorem claim_c1_cancelled_teardown (ev : ErrorEvent) (authPresent errorCbPresent : Bool)
    (fresh : Option Handle) (s : ProviderState) (k0 : String) (h0 : Handle)
    (hmsg : jsEndsWith ev.message "cancelled by user" = true)
    (hlat : s.collection.latest = some (k0, h0))
    (hmem : k0 ∈ mapKeys s.collection.streams)
    (hkeys : ∀ p ∈ s.collection.streams, p.1 = getKey ⟨ev.request_id, p.2.exchangeId⟩) :
    (reportErrorEvent ev authPresent errorCbPresent fresh s).state.collection.streams = [] ∧
    (reportErrorEvent ev authPresent errorCbPresent fresh s).state.collection.latest = none ∧
    (reportErrorEvent ev authPresent errorCbPresent fresh s).actions
      = Action.stage h0 "Cancelled"
          :: s.collection.streams.map (fun p => Action.close p.2) ∧
    (reportErrorEvent ev authPresent errorCbPresent fresh s).outcome
      = DispatchOutcome.returned := by
  have hcond := jsEndsWith_toLower_cancelled ev.message hmsg
  have hne : s.collection.streams ≠ [] := by
    intro hnil
    rw [hnil] at hmem
    simp [mapKeys] at hmem
  have tear := closeAndRemoveAll_teardown ev.request_id s.collection.streams s rfl hkeys
  have e1 : reportErrorEvent ev authPresent errorCbPresent fresh s
      = ⟨(closeAndRemoveAll ev.request_id (getAllResponseStreams s.collection) s).1,
         (match s.collection.latest with
          | some kh => [Action.stage kh.2 "Cancelled"]
          | none => [])
           ++ (closeAndRemoveAll ev.request_id (getAllResponseStreams s.collection) s).2,
         DispatchOutcome.returned⟩ := by
    unfold reportErrorEvent
    rw [if_pos hcond]
  have e2 : getAllResponseStreams s.collection = s.collection.streams.map Prod.snd := rfl
  rw [e1, e2]
  refine ⟨tear.1, ?_, ?_, rfl⟩
  · rw [tear.2.1, if_neg hne]
  · rw [tear.2.2, hlat]
    simp

theorem claim_c1_cancelled_teardown_witness :
    (reportErrorEvent ⟨"s", "the task was cancelled by user"⟩ true false none
      twoStreamState).state.collection.streams = [] ∧
    (reportErrorEvent ⟨"s", "the task was cancelled by user"⟩ true false none
      twoStreamState).state.collection.latest = none ∧
    (reportErrorEvent ⟨"s", "the task was cancelled by user"⟩ true false none
      twoStreamState).actions
      = [Action.stage ⟨1, "e1"⟩ "Cancelled", Action.close ⟨1, "e1"⟩,
         Action.close ⟨2, "e2"⟩] ∧
    (reportErrorEvent ⟨"s", "the task was cancelled by user"⟩ true false none
      twoStreamState).outcome = DispatchOutcome.returned := by
  have := claim_c1_cancelled_teardown ⟨"s", "the task was cancelled by user"⟩ true false none
    twoStreamState (getKey ⟨"s", "e1"⟩) ⟨1, "e1"⟩ (by decide) (by decide) (by decide)
    (by decide)
  exact ⟨this.1, this.2.1, this.2.2.1.trans (by decide), this.2.2.2⟩

/-- Claim C1, counterexample: the claim promises that every registered response
stream is closed and removed, but a stream registered under a different session
(`"s2"`) survives the cancellation handling of an event for session `"s1"`
untouched, and its handle is never closed — the teardown loop keys its lookups
by the event's `request_id`. -/
theorem claim_c1_counterexample :
    (reportErrorEvent cancelEventS1 true false none otherSessionState).state.collection.streams
      = [(getKey ⟨"s2", "e2"⟩, ⟨2, "e2"⟩)] ∧
    Action.close ⟨2, "e2"⟩
      ∉ (reportErrorEvent cancelEventS1 true false none otherSessionState).actions ∧
    (reportErrorEvent cancelEventS1 true false none otherSessionState).outcome
      = DispatchOutcome.returned := by
  decide

/-! ## Claim C4: ToolThinking delta emission -/

/-- Claim C4, counterexample: with cached cumulative text `"abc"`, the event
carrying `"abcdef"` emits the markdown fragment `"def\n"` — the delta plus a
newline appended by the template literal — not exactly the string `"def"` as
the claim states. -/
theorem claim_c4_counterexample :
    (handleToolThinking "s" "e" ⟨7, "e"⟩ "abcdef" [("s-e", "abc")]).1
        = [Action.markdown ⟨7, "e"⟩ "def\n"] ∧
    (handleToolThinking "s" "e" ⟨7, "e"⟩ "abcdef" [("s-e", "abc")]).1
        ≠ [Action.markdown ⟨7, "e"⟩ "def"] := by
  decide

/-- Claim C4 as amended: for two consecutive ToolThinking events on the same
exchange carrying cumulative texts `t` and then `t ++ d`, the dispatcher emits
exactly one markdown fragment, the new suffix `d` followed by a newline, and
emits nothing when the cumulative text has not grown (`d` empty); the cache is
updated to the new cumulative text either way. -/
theorem claim_c4_thinking_delta (sessionId exchangeId : String) (h : Handle)
    (lastText d : String) (cache : List (String × String))
    (hcache : mapGet cache (sessionId ++ "-" ++ exchangeId) = some lastText) :
    (handleToolThinking sessionId exchangeId h (lastText ++ d) cache).1
      = (if d = "" then [] else [Action.markdown h (d ++ "\n")]) ∧
    (handleToolThinking sessionId exchangeId h (lastText ++ d) cache).2
      = mapSet cache (sessionId ++ "-" ++ exchangeId) (lastText ++ d) := by
  have hslice : jsSliceFrom (lastText ++ d) (jsLength lastText) = d := by
    unfold jsSliceFrom jsLength
    have hdata : (lastText ++ d).data = lastText.data ++ d.data := by
      cases lastText
      cases d
      rfl
    rw [hdata, List.drop_left]
  constructor
  · simp only [handleToolThinking, hcache, Option.getD_some, hslice]
  · simp only [handleToolThinking, hcache]

theorem claim_c4_thinking_delta_witness :
    (handleToolThinking "s" "e" ⟨7, "e"⟩ "abcdef" [("s-e", "abc")]).1
      = [Action.markdown ⟨7, "e"⟩ "def\n"] ∧
    (handleToolThinking "s" "e" ⟨7, "e"⟩ "abcabc" [("s-e", "abcabc")]).1 = [] := by
  constructor
  · exact (claim_c4_thinking_delta "s" "e" ⟨7, "e"⟩ "abc" "def" [("s-e", "abc")]
      (by decide)).1.trans (by decide)
  · exact (claim_c4_thinking_delta "s" "e" ⟨7, "e"⟩ "abcabc" "" [("s-e", "abcabc")]
      (by decide)).1.trans (by decide)

/-! ## Claim C6: `undoToCheckpoint` -/

/-- Claim C6: when no stream handle is registered for the request's
`(sessionId, exchangeId)`, `undoToCheckpoint` returns `success = false` and
emits nothing; otherwise it emits, onto that stream, exactly one zero-length
delete edit at `/undoCheck` whose label is the exchange id when the plan-step
index is absent and `exchangeId ++ "::" ++ index` otherwise, with
`needsConfirmation = false`, and returns `success = true`. -/
theorem claim_c6_undo_to_checkpoint (req : SidecarUndoPlanStep) (s : ProviderState) :
    ((getResponseStream ⟨req.session_id, req.exchange_id⟩ s.collection).1 = none →
      (undoToCheckpoint req s).1 = false ∧ (undoToCheckpoint req s).2.2 = []) ∧
    (∀ h, (getResponseStream ⟨req.session_id, req.exchange_id⟩ s.collection).1 = some h →
      (undoToCheckpoint req s).1 = true ∧
      (undoToCheckpoint req s).2.2
        = [Action.codeEdit h
            { path := "/undoCheck", startLine := 0, startCharacter := 0,
              endLine := 0, endCharacter := 0,
              label :=
                (match req.index with
                 | none => req.exchange_id
                 | some planStep => req.exchange_id ++ "::" ++ toString planStep),
              needsConfirmation := false }]) := by
  constructor
  · intro hres
    simp only [undoToCheckpoint, hres]
    exact ⟨trivial, trivial⟩
  · intro h hres
    simp only [undoToCheckpoint, hres]
    exact ⟨trivial, trivial⟩

theorem claim_c6_undo_to_checkpoint_witness :
    (undoToCheckpoint ⟨"e1", "s", some 2⟩ twoStreamState).1 = true ∧
    (undoToCheckpoint ⟨"e1", "s", some 2⟩ twoStreamState).2.2
      = [Action.codeEdit ⟨1, "e1"⟩
          { path := "/undoCheck", startLine := 0, startCharacter := 0,
            endLine := 0, endCharacter := 0, label := "e1::2",
            needsConfirmation := false }] ∧
    (undoToCheckpoint ⟨"missing", "s", none⟩ twoStreamState).1 = false := by
  have h1 := (claim_c6_undo_to_checkpoint ⟨"e1", "s", some 2⟩ twoStreamState).2
    ⟨1, "e1"⟩ (by decide)
  have h2 := (claim_c6_undo_to_checkpoint ⟨"missing", "s", none⟩ twoStreamState).1
    (by decide)
  exact ⟨h1.1, h1.2.trans (by decide), h2.1⟩

/-! ## Claim C10: `provideEdit` without an open stream -/

/-- Claim C10: an `applyEdit` request with `apply_directly = false` arriving
while no turn-scoped open response stream exists makes `provideEdit` return the
request's file path with `success = true` while applying no edit at all (an
empty action trace), rather than reporting failure. -/
theorem claim_c10_provide_edit_no_stream (req : SidecarApplyEditsRequest)
    (ext : FsResponse × List Action) (s : ProviderState)
    (hdirect : req.apply_directly = false)
    (hopen : s.openResponseStream = none) :
    provideEdit req ext s = (⟨req.fs_file_path, true⟩, []) := by
  simp [provideEdit, hdirect, hopen]

theorem claim_c10_provide_edit_no_stream_witness :
    provideEdit ⟨"/tmp/a.txt", false⟩ (⟨"/tmp/a.txt", false⟩, []) emptyProviderState
      = (⟨"/tmp/a.txt", true⟩, []) :=
  claim_c10_provide_edit_no_stream ⟨"/tmp/a.txt", false⟩ (⟨"/tmp/a.txt", false⟩, [])
    emptyProviderState rfl rfl

/-! ## Claim C3: unauthorized retry -/

/-- Claim C3: when the dispatcher reports an authorization error on the first
attempt of a request (`hasRetried = false`), the Session Driver re-acquires a
hard-checked credential and restarts the same call exactly once with
`hasRetried = true`; whether or not an authorization error arrives on that
retried call, `onUnauthorized` then returns without restarting again, so each
request performs exactly two sidecar calls — the original soft-credential one
and one hard-credential retry.  Two units of fuel always suffice, so the
recursion terminates. -/
theorem claim_c3_unauthorized_retry_once (prompt : String) (authErrorAt : Bool → Bool)
    (fuel : Nat) (hfuel : 2 ≤ fuel) (hfirst : authErrorAt false = true) :
    processEventModel prompt authErrorAt fuel
      = some [⟨prompt, false, CredCheck.soft⟩, ⟨prompt, true, CredCheck.hard⟩] := by
  rcases fuel with _ | fuel1
  · exact absurd hfuel (by decide)
  rcases fuel1 with _ | f
  · exact absurd hfuel (by decide)
  have inner : streamResponseFuel prompt CredCheck.hard authErrorAt true (Nat.succ f)
      = some [⟨prompt, true, CredCheck.hard⟩] := by
    cases hsecond : authErrorAt true <;> simp [streamResponseFuel, hsecond]
  simp [processEventModel, streamResponseFuel, hfirst, inner]

theorem claim_c3_unauthorized_retry_once_witness :
    processEventModel "prompt" (fun _ => true) 2
      = some [⟨"prompt", false, CredCheck.soft⟩, ⟨"prompt", true, CredCheck.hard⟩] :=
  claim_c3_unauthorized_retry_once "prompt" (fun _ => true) 2 (by decide) rfl

/-! ## Claim C7: port selection -/

theorem getNextOpenPort_eq_some (isOpen : Nat → Bool) :
    ∀ (n start p : Nat), p - start = n → start ≤ p → p < 65535 → isOpen p = true →
      (∀ q, q < p → start ≤ q → isOpen q = false) →
      getNextOpenPort isOpen start = some p := by
  intro n
  induction n with
  | zero =>
    intro start p h0 hle hlt hopen hbusy
    have hsp : start = p := by omega
    subst hsp
    unfold getNextOpenPort
    simp [hlt, hopen]
  | succ n ih =>
    intro start p h0 hle hlt hopen hbusy
    have hsp : start < p := by omega
    have h65 : start < 65535 := by omega
    have hb : isOpen start = false := hbusy start hsp (Nat.le_refl start)
    unfold getNextOpenPort
    simp only [if_pos h65, hb, Bool.false_eq_true, if_false]
    exact ih (start + 1) p (by omega) (by omega) hlt hopen
      (fun q hq hq2 => hbusy q hq (by omega))

theorem getNextOpenPort_eq_none (isOpen : Nat → Bool) :
    ∀ (n start : Nat), 65535 - start = n →
      (∀ q, start ≤ q → q < 65535 → isOpen q = false) →
      getNextOpenPort isOpen start = none := by
  intro n
  induction n with
  | zero =>
    intro start h0 hbusy
    have hge : ¬(start < 65535) := by omega
    unfold getNextOpenPort
    simp [hge]
  | succ n ih =>
    intro start h0 hbusy
    have h65 : start < 65535 := by omega
    have hb : isOpen start = false := hbusy start (Nat.le_refl start) h65
    unfold getNextOpenPort
    simp only [if_pos h65, hb, Bool.false_eq_true, if_false]
    exact ih (start + 1) (by omega) (fun q hq hlt => hbusy q (by omega) hlt)

/-- Claim C7: the port scan probes linearly upward from the fixed default 42427
and terminates (the recursion is well-founded on the remaining scan space): it
returns the first port the probe reports free, and when every probed port of the
scan space is busy it returns null, in which case the provider constructor
throws `Error('Could not find an open port')` instead of starting the
listener. -/
theorem claim_c7_port_scan (isOpen : Nat → Bool) (p : Nat) :
    (42427 ≤ p → p < 65535 → isOpen p = true →
      (∀ q, q < p → 42427 ≤ q → isOpen q = false) →
      getNextOpenPort isOpen 42427 = some p ∧
      providerConstructorPort isOpen = Except.ok (p, [Action.listen p])) ∧
    ((∀ q, 42427 ≤ q → q < 65535 → isOpen q = false) →
      getNextOpenPort isOpen 42427 = none ∧
      providerConstructorPort isOpen = Except.error "Could not find an open port") := by
  constructor
  · intro hle hlt hopen hbusy
    have hsome := getNextOpenPort_eq_some isOpen (p - 42427) 42427 p rfl hle hlt hopen hbusy
    exact ⟨hsome, by simp [providerConstructorPort, hsome]⟩
  · intro hbusy
    have hnone := getNextOpenPort_eq_none isOpen (65535 - 42427) 42427 rfl
      (fun q hq hlt => hbusy q hq hlt)
    exact ⟨hnone, by simp [providerConstructorPort, hnone]⟩

theorem claim_c7_port_scan_witness :
    getNextOpenPort (fun _ => true) 42427 = some 42427 ∧
    providerConstructorPort (fun _ => false)
      = Except.error "Could not find an open port" :=
  ⟨((claim_c7_port_scan (fun _ => true) 42427).1 (Nat.le_refl _) (by omega) rfl
      (fun q hq hle => absurd (Nat.lt_of_le_of_lt hle hq) (Nat.lt_irrefl 42427))).1,
   ((claim_c7_port_scan (fun _ => false) 0).2 (fun q _ _ => rfl)).2⟩

/-! ## Claim C5: a second End event for the same edit-request id -/

/-- Claim C5 (a bug in the code): `End` is not a safe no-op the second time.
Processing `Start` then `End` for edit-request id `"r1"` succeeds and deletes
the edit session; processing a second `End` for the same id throws a
`TypeError`, because the `End` branch reads `.answerSplitter` from the result
of `editsMap.get` without the `undefined` guard the `Delta` branch has
(aideAgentProvider.ts:337-339 versus 354-355). -/
theorem claim_c5_second_end_throws :
    provideEditStreamed startReqR1 (some "hello") emptyProviderState
      = Except.ok (⟨"", true⟩, stateAfterStartR1, []) ∧
    provideEditStreamed endReqR1 (some "hello") stateAfterStartR1
      = Except.ok (⟨"", true⟩, stateAfterEndR1,
          [Action.cleanupProcessor "r1", Action.saveFile "/tmp/file.txt"]) ∧
    stateAfterEndR1.editsMap = [] ∧
    provideEditStreamed endReqR1 (some "hello") stateAfterEndR1
      = Except.error JsError.typeError := by
  decide

end Aide
